import Mathlib

/-!
Verification of the SP-BAND spectral-parameterization engine
(`SPBAND/parameterize_spectra.py`).

The Python module fits a power spectrum as an aperiodic (1/f-like) component
plus band-constrained Gaussian peaks.  This file gives a shallow embedding of
the parts of the module relevant to the checked claims:

* the exception flow of `ParamSpectra.fit` / `_robust_ap_fit` /
  `_simple_ap_fit` / `constrained_gaussian_fit` (the three `scipy.curve_fit`
  calls are modelled as oracle outcomes, since their numeric behaviour is
  external to the module);
* the configuration fields stored by `ParamSpectra.__init__` and the band
  filter at line 175;
* the powerline-harmonic enumeration of `_prepare_data` (lines 396-399);
* the percentile-based point selection of `_robust_ap_fit`
  (`np.percentile` with the default linear interpolation);
* the per-band parameter bounds of `constrained_gaussian_fit` and
  `compute_gauss_std`;
* the generated band schemes of `str2band` (`log`, `linear`, `log10`);
* the guarded knee-mode forward function `expo_function`;
* the initial-guess construction of `_simple_ap_fit`.

Rational numbers model the (exact) float arithmetic where the code only uses
field operations and comparisons; real numbers are used where the code calls
transcendental functions (`np.log`, `np.log10`, `np.sqrt`, `np.power`,
`np.exp`).  A numpy NaN is modelled as `Option.none` where the code tests
`np.isnan` (the reset "failed" state of the model results).
-/

namespace SPBAND

/-- Exception kinds that can travel through the fitting engine: the module's
own `FitError`, `DataError`, `NoDataError`, `NoModelError`, and the Python /
scipy exceptions `RuntimeError`, `TypeError`, `ValueError` that
`scipy.optimize.curve_fit` can raise. -/
inductive Exc where
  | fitError
  | runtimeError
  | typeError
  | valueError
  | dataError
  | noDataError
  | noModelError
  deriving DecidableEq

/-- Aperiodic mode (`aperiodic_mode` constructor argument): `fixed` or `knee`. -/
inductive ApMode where
  | fixed
  | knee
  deriving DecidableEq

/-- Number of aperiodic parameters for a mode, as in
`_reset_data_results`: 2 if the mode is `fixed`, else 3. -/
def nApParams : ApMode → ℕ
  | .fixed => 2
  | .knee => 3

/-- Configuration fields stored on the instance by `ParamSpectra.__init__`
(lines 159-172).  `bands` is the retained band set (after the line-175
filter); `linenoise = none` models Python `None`. -/
structure Config where
  bands : List (ℚ × ℚ)
  l_freq : ℚ
  h_freq : ℚ
  aperiodic_mode : ApMode
  linenoise : Option ℚ
  prominence : ℚ
  log_freqs : Bool
  max_n_peaks : ℕ
  deriving DecidableEq

/-- Model-results fields of `ParamSpectra` that the claims inspect.
`aperiodic_params_` entries are `none` for NaN (the reset state) and
`some v` for an ordinary float produced by a successful solve. -/
structure FitResults where
  aperiodic_params_ : List (Option ℚ)
  gaussian_params_ : List ℚ
  deriving DecidableEq

/-- Embedding of `_reset_data_results(clear_results=True)` (lines 263-279):
the aperiodic parameters become an all-NaN vector of length 2 (`fixed`) or
3 (`knee`) and the Gaussian parameters are emptied. -/
def resetResults (mode : ApMode) : FitResults :=
  ⟨List.replicate (nApParams mode) none, []⟩

/-- Embedding of the `has_model` property (line 240):
`True if not np.all(np.isnan(self.aperiodic_params_)) else False`. -/
def hasModel (r : FitResults) : Bool :=
  !(r.aperiodic_params_.all Option.isNone)

/-- Embedding of the band filter of `__init__` line 175:
`[band for band in self.bands if band[0] < h_freq and band[1] > l_freq]`. -/
def retainedBands (bands : List (ℚ × ℚ)) (l_freq h_freq : ℚ) : List (ℚ × ℚ) :=
  bands.filter (fun band => decide (band.1 < h_freq) && decide (l_freq < band.2))

/-- Embedding of the configuration part of `ParamSpectra.__init__`: the raw
band list (already resolved by `str2band`) is filtered against the cutoffs
and all other configuration arguments are stored unchanged. -/
def mkConfig (rawBands : List (ℚ × ℚ)) (l_freq h_freq : ℚ) (mode : ApMode)
    (linenoise : Option ℚ) (prominence : ℚ) (log_freqs : Bool)
    (max_n_peaks : ℕ) : Config :=
  ⟨retainedBands rawBands l_freq h_freq, l_freq, h_freq, mode, linenoise,
    prominence, log_freqs, max_n_peaks⟩

/-- Mutable state of a `ParamSpectra` instance: its configuration fields and
its model-results fields. -/
structure PSState where
  config : Config
  results : FitResults
  deriving DecidableEq

/-- Embedding of instance construction: store the configuration and
initialize the results via `_reset_data_results(True, True, True)`. -/
def initPS (cfg : Config) : PSState :=
  ⟨cfg, resetResults cfg.aperiodic_mode⟩

/-- Outcomes of the three `scipy.curve_fit` calls that `ParamSpectra.fit`
triggers, treated as an oracle: `simpleInitial` is the solve inside the first
`_simple_ap_fit` (called from `_robust_ap_fit`), `robustRefit` is the
re-solve of `_robust_ap_fit` as a function of its initial guess `p0`,
`gaussFit` is the solve inside `constrained_gaussian_fit`, and `simpleFinal`
is the solve inside the final `_simple_ap_fit` (fit step f).  `Except.error`
is the exception the solver raises, `Except.ok` its parameter vector. -/
structure FitOracle where
  simpleInitial : Except Exc (List ℚ)
  robustRefit : List ℚ → Except Exc (List ℚ)
  gaussFit : Except Exc (List ℚ)
  simpleFinal : Except Exc (List ℚ)

/-- Exception flow of `_simple_ap_fit` (lines 524-537): the `try` block
around `curve_fit` has a single handler `except FitError` which re-raises a
`FitError`; every other exception kind (in particular the `RuntimeError`
that `curve_fit` raises on non-convergence) propagates unchanged. -/
def simpleApFitExc (cf : Except Exc (List ℚ)) : Except Exc (List ℚ) :=
  match cf with
  | .ok p => .ok p
  | .error .fitError => .error .fitError
  | .error e => .error e

/-- Exception flow of `_robust_ap_fit` (lines 455-496): first the simple fit
runs with no surrounding handler, then the re-fit is called with the simple
fit's parameters as `p0`; around the re-fit, `RuntimeError` and `TypeError`
are converted to `FitError`, anything else propagates. -/
def robustApFit (o : FitOracle) : Except Exc (List ℚ) :=
  match simpleApFitExc o.simpleInitial with
  | .error e => .error e
  | .ok popt =>
    match o.robustRefit popt with
    | .ok p => .ok p
    | .error .runtimeError => .error .fitError
    | .error .typeError => .error .fitError
    | .error e => .error e

/-- Body of the `try` block of `ParamSpectra.fit` (lines 587-642), tracking
the successive mutations of the model results: step (a) robust aperiodic fit
assigns `aperiodic_params_`, step (c) the Gaussian peak fit (whose
`curve_fit` has no handler at all) assigns `gaussian_params_`, step (f) the
final simple aperiodic fit overwrites `aperiodic_params_`.  Returns the
results as mutated so far together with the exception, if one escaped. -/
def fitBodySt (r0 : FitResults) (o : FitOracle) : FitResults × Option Exc :=
  match robustApFit o with
  | .error e => (r0, some e)
  | .ok ap =>
    let r1 : FitResults := ⟨ap.map some, r0.gaussian_params_⟩
    match o.gaussFit with
    | .error e => (r1, some e)
    | .ok g =>
      let r2 : FitResults := ⟨r1.aperiodic_params_, g⟩
      match simpleApFitExc o.simpleFinal with
      | .error e => (r2, some e)
      | .ok ap2 => (⟨ap2.map some, r2.gaussian_params_⟩, none)

/-- Helper for line 566 of `fit`: `self.prominence = prominence` overwrites
the stored prominence with the call argument, leaving every other field of
the instance untouched. -/
def setProminence (s : PSState) (p : ℚ) : PSState :=
  ⟨⟨s.config.bands, s.config.l_freq, s.config.h_freq, s.config.aperiodic_mode,
     s.config.linenoise, p, s.config.log_freqs, s.config.max_n_peaks⟩,
   s.results⟩

/-- Embedding of `ParamSpectra.fit` (lines 539-657).  `promArg` is the
`prominence` keyword argument (Python default 0.5), `debug` is `self._debug`.
The body runs under `try ... except FitError`: a `FitError` is re-raised in
debug mode and otherwise contained by resetting the model results; any other
exception kind escaping the body propagates to the caller, leaving whatever
partial results the body produced.  The second component is the exception
that `fit` raises (`none` = returns normally). -/
def fitStep (s : PSState) (promArg : ℚ) (debug : Bool) (o : FitOracle) :
    PSState × Option Exc :=
  match fitBodySt (setProminence s promArg).results o with
  | (r, none) => (⟨(setProminence s promArg).config, r⟩, none)
  | (r, some Exc.fitError) =>
    if debug then (⟨(setProminence s promArg).config, r⟩, some .fitError)
    else (⟨(setProminence s promArg).config,
            resetResults (setProminence s promArg).config.aperiodic_mode⟩, none)
  | (r, some e) => (⟨(setProminence s promArg).config, r⟩, some e)

/-- Embedding of `ParamSpectra.get_params_out` (lines 760-785): raises
`NoModelError` when `has_model` is false, otherwise returns the fit record. -/
def getParamsOut (s : PSState) : Except Exc FitResults :=
  if hasModel s.results then .ok s.results else .error .noModelError

/-- Embedding of `self._max_harmonic` (line 396):
`int(freqs.max()//self.linenoise) if self.linenoise is not None else 0`. -/
def maxHarmonic (linenoise : Option ℚ) (fmax : ℚ) : ℤ :=
  match linenoise with
  | some base => ⌊fmax / base⌋
  | none => 0

/-- Embedding of the harmonic enumeration of `_prepare_data` (lines 397-398):
when `self._max_harmonic > 0` the candidate harmonic list is
`[60*int(ii) for ii in range(1, self._max_harmonic+1)]` — note the hardcoded
base frequency 60 — and otherwise no harmonic list is built. -/
def prepareHarmonics (linenoise : Option ℚ) (fmax : ℚ) : List ℚ :=
  if 0 < maxHarmonic linenoise fmax then
    (List.range (maxHarmonic linenoise fmax).toNat).map (fun i => 60 * ((i : ℚ) + 1))
  else []

/-- Concrete `curve_fit` oracle whose final simple aperiodic solve (fit
step f) raises `RuntimeError` — solver non-convergence — while every other
solve succeeds. -/
def oracleFinalRuntimeError : FitOracle :=
  ⟨.ok [0, 1, 2], fun p => .ok p, .ok [1, 8, 1], .error .runtimeError⟩

/-- Concrete oracle whose robust re-solve raises `RuntimeError`, which
`_robust_ap_fit` converts to `FitError`; the other solves succeed. -/
def oracleRefitRuntimeError : FitOracle :=
  ⟨.ok [0, 1, 2], fun _ => .error .runtimeError, .ok [1, 8, 1], .ok [0, 1, 2]⟩

/-- Concrete oracle where every solve succeeds. -/
def oracleAllOk : FitOracle :=
  ⟨.ok [0, 1, 2], fun p => .ok p, .ok [1, 8, 1], .ok [0, 1, 2]⟩

/-- Enumeration following the specification's words, for comparison with
`prepareHarmonics`: the integer multiples of the configured base line-noise
frequency up to the data's maximum frequency. -/
def specHarmonics (base fmax : ℚ) : List ℚ :=
  (List.range (⌊fmax / base⌋).toNat).map (fun i => base * ((i : ℚ) + 1))

/-- Insertion of a rational into a sorted list (helper for the sort that
`np.percentile` performs internally). -/
def insortQ (x : ℚ) : List ℚ → List ℚ
  | [] => [x]
  | y :: ys => if x ≤ y then x :: y :: ys else y :: insortQ x ys

/-- Ascending sort of a rational list (the partition-sort inside
`np.percentile`, whose result only matters through the sorted order). -/
def sortQ (xs : List ℚ) : List ℚ := xs.foldr insortQ []

/-- Embedding of `np.percentile(xs, q)` with numpy's default linear
interpolation: the virtual index is `q/100 * (n-1)`, and the value is
interpolated between the two adjacent order statistics. -/
def npPercentile (xs : List ℚ) (q : ℚ) : ℚ :=
  let ys := sortQ xs
  let pos : ℚ := q * ((ys.length : ℚ) - 1) / 100
  let k : ℤ := ⌊pos⌋
  let lo := ys.getD k.toNat 0
  let hi := ys.getD (k.toNat + 1) lo
  lo + (pos - (k : ℚ)) * (hi - lo)

/-- Embedding of lines 460-463 of `_robust_ap_fit`: the flattened spectrum
`power_spectrum - initial_fit` with negative entries clipped to zero. -/
def clippedResiduals (ps fit : List ℚ) : List ℚ :=
  (ps.zip fit).map (fun pr => max 0 (pr.1 - pr.2))

/-- Embedding of line 466 of `_robust_ap_fit`:
`np.percentile(flatspec, self._ap_percentile_thresh)` with the stored
threshold `0.025` (line 179) passed directly as the percentile `q`. -/
def robustThreshold (ps fit : List ℚ) : ℚ :=
  npPercentile (clippedResiduals ps fit) (1 / 40)

/-- Embedding of line 467: the boolean mask `flatspec <= perc_thresh`. -/
def robustMask (ps fit : List ℚ) : List Bool :=
  (clippedResiduals ps fit).map (fun v => decide (v ≤ robustThreshold ps fit))

/-- Numpy boolean-mask indexing `vals[mask]`: keep the entries whose mask
bit is set. -/
def maskSelect (vals : List ℚ) (mask : List Bool) : List ℚ :=
  ((vals.zip mask).filter (fun p => p.2)).map (fun p => p.1)

/-- Embedding of line 468: `freqs_ignore = freqs[perc_mask]`. -/
def robustFreqsIgnore (freqs ps fit : List ℚ) : List ℚ :=
  maskSelect freqs (robustMask ps fit)

/-- Embedding of line 469: `spectrum_ignore = power_spectrum[perc_mask]`. -/
def robustSpectrumIgnore (ps fit : List ℚ) : List ℚ :=
  maskSelect ps (robustMask ps fit)

/-- Point selection following the specification's words, for comparison
with the code's `robustFreqsIgnore`: keep the frequencies whose clipped
residual is at or below the 2.5th percentile of the clipped residuals. -/
def specSelect2p5 (freqs ps fit : List ℚ) : List ℚ :=
  maskSelect freqs ((clippedResiduals ps fit).map
    (fun v => decide (v ≤ npPercentile (clippedResiduals ps fit) (5 / 2))))

/-- Concrete 41-sample frequency grid 1, 2, ..., 41. -/
def c4Freqs : List ℚ :=
  [1, 2, 3, 4, 5, 6, 7, 8, 9, 10, 11, 12, 13, 14, 15, 16, 17, 18, 19, 20, 21,
   22, 23, 24, 25, 26, 27, 28, 29, 30, 31, 32, 33, 34, 35, 36, 37, 38, 39, 40, 41]

/-- Concrete 41-sample log-power vector 0, 1, ..., 40. -/
def c4Power : List ℚ :=
  [0, 1, 2, 3, 4, 5, 6, 7, 8, 9, 10, 11, 12, 13, 14, 15, 16, 17, 18, 19, 20,
   21, 22, 23, 24, 25, 26, 27, 28, 29, 30, 31, 32, 33, 34, 35, 36, 37, 38, 39, 40]

/-- Concrete all-zero initial aperiodic fit over 41 samples. -/
def c4InitFit : List ℚ :=
  [0, 0, 0, 0, 0, 0, 0, 0, 0, 0, 0, 0, 0, 0, 0, 0, 0, 0, 0, 0, 0,
   0, 0, 0, 0, 0, 0, 0, 0, 0, 0, 0, 0, 0, 0, 0, 0, 0, 0, 0, 0]

noncomputable section
open Real

/-- Embedding of `compute_gauss_std` (line 1067): the Gaussian standard
deviation implied by a full-width-half-max, `fwhm / (2*np.sqrt(2*np.log(2)))`. -/
def compute_gauss_std (fwhm : ℝ) : ℝ :=
  fwhm / (2 * Real.sqrt (2 * Real.log 2))

/-- Embedding of the bound-construction loop of `constrained_gaussian_fit`
(lines 1109-1113): for each band `(l, h)` the flat bound list receives the
pairs `(-inf, inf)` for the amplitude, `(l, h)` for the mean and
`(0, compute_gauss_std(h - l))` for the standard deviation.  Infinities are
modelled in `EReal`. -/
def gaussFitBoundPairs (bands : List (ℝ × ℝ)) : List (EReal × EReal) :=
  bands.flatMap (fun band =>
    [((⊥ : EReal), (⊤ : EReal)),
     ((band.1 : EReal), (band.2 : EReal)),
     (((0 : ℝ) : EReal), ((compute_gauss_std (band.2 - band.1) : ℝ) : EReal))])

/-- Embedding of line 1117: the lower-bound vector passed to `curve_fit`. -/
def gaussFitLowerBounds (bands : List (ℝ × ℝ)) : List EReal :=
  (gaussFitBoundPairs bands).map (fun b => b.1)

/-- Embedding of line 1117: the upper-bound vector passed to `curve_fit`. -/
def gaussFitUpperBounds (bands : List (ℝ × ℝ)) : List EReal :=
  (gaussFitBoundPairs bands).map (fun b => b.2)

/-- Value of `np.linspace(a, b, den+1)` at index `i`:
`a + (b - a) * i / den`. -/
def linVal (a b : ℝ) (den : ℕ) (i : ℕ) : ℝ :=
  a + (b - a) * i / den

/-- Grid point `i` of the `log` scheme of `str2band` (line 796):
`np.logspace(np.log(l), np.log(h), num=m+1, base=np.e)` where `m` is the
peak count after the 62 cap, i.e. `exp` of the linear grid on `[ln l, ln h]`. -/
def logGridPt (l h : ℝ) (m : ℕ) (i : ℕ) : ℝ :=
  Real.exp (linVal (Real.log l) (Real.log h) m i)

/-- Grid point `i` of the `log10` scheme of `str2band` (line 802):
`np.logspace(np.log10(l), np.log10(h), num=n+1)` with the default base 10. -/
def log10GridPt (l h : ℝ) (n : ℕ) (i : ℕ) : ℝ :=
  (10 : ℝ) ^ (linVal (Real.logb 10 l) (Real.logb 10 h) n i)

/-- Bands of `str2band('log', max_n_peaks=n, l_freq=l, h_freq=h)`
(lines 793-797): the peak count is first capped at 62, then consecutive
points of the log-spaced grid are paired up. -/
def str2bandLog (n : ℕ) (l h : ℝ) : List (ℝ × ℝ) :=
  (List.range (min n 62)).map
    (fun i => (logGridPt l h (min n 62) i, logGridPt l h (min n 62) (i + 1)))

/-- Bands of `str2band('linear', max_n_peaks=n, l_freq=l, h_freq=h)`
(lines 798-800): consecutive points of `np.linspace(l, h, n+1)` paired up,
with no cap applied to `n`. -/
def str2bandLinear (n : ℕ) (l h : ℝ) : List (ℝ × ℝ) :=
  (List.range n).map (fun i => (linVal l h n i, linVal l h n (i + 1)))

/-- Bands of `str2band('log10', max_n_peaks=n, l_freq=l, h_freq=h)`
(lines 801-803): consecutive points of the base-10 log-spaced grid paired
up, with no cap applied to `n`. -/
def str2bandLog10 (n : ℕ) (l h : ℝ) : List (ℝ × ℝ) :=
  (List.range n).map (fun i => (log10GridPt l h n i, log10GridPt l h n (i + 1)))

/-- Embedding of `inner_arg = knee + xs**exp` (line 920) of `expo_function`. -/
def innerArgs (xs : List ℝ) (knee expn : ℝ) : List ℝ :=
  xs.map (fun x => knee + x ^ expn)

open scoped Classical in
/-- Embedding of `np.min(inner_arg[inner_arg > 0])` (line 922): the minimum
of the positive entries of the array (0 as a junk value when there is none —
that case corresponds to numpy raising, see `expoFunction`). -/
def minPositiveEntry (l : List ℝ) : ℝ :=
  match l.filter (fun v => decide (0 < v)) with
  | [] => 0
  | p :: rest => rest.foldl min p

open scoped Classical in
/-- Embedding of `expo_function` (lines 899-925).  The non-positive entries
of `inner_arg` are replaced by `np.min(inner_arg[inner_arg > 0])` before
`np.log10` is applied; when no entry is positive that minimum is taken over
an empty array and numpy raises, which the embedding renders as `none`. -/
def expoFunction (xs : List ℝ) (offset knee expn : ℝ) : Option (List ℝ) :=
  let inner := innerArgs xs knee expn
  if inner.filter (fun v => decide (0 < v)) = [] then none
  else
    some (inner.map (fun v =>
      offset - Real.logb 10 (if v ≤ 0 then minPositiveEntry inner else v)))

open scoped Classical in
/-- Python truthiness guard used by `_simple_ap_fit` on the stored
`_ap_guess` entries (`power_spectrum[1] if not self._ap_guess[0] else ...`):
a `None` or a zero guess falls back to the data-derived value. -/
def guessOrDefault (g : Option ℝ) (fallback : ℝ) : ℝ :=
  match g with
  | none => fallback
  | some v => if v = 0 then fallback else v

/-- Embedding of the exponent guess of `_simple_ap_fit` (lines 503-505):
the absolute log-log slope between the first and last samples of the
instance attributes `self.power_spectrum` and `self.freqs`. -/
def apExpSlope (selfFreqs selfPS : List ℝ) : ℝ :=
  |(selfPS.getLastD 0 - selfPS.headD 0) /
    (Real.logb 10 (selfFreqs.getLastD 0) - Real.logb 10 (selfFreqs.headD 0))|

/-- Embedding of the guess construction of `_simple_ap_fit` (lines 499-516)
for stored guesses `(g0, g1, g2) = self._ap_guess`: the offset guess falls
back to index 1 of the `power_spectrum` argument of the call, the knee guess
`g1` is included only in knee mode, and the exponent guess falls back to the
log-log slope of the stored attributes. -/
def simpleApFitGuess (g0 : Option ℝ) (g1 : ℝ) (g2 : Option ℝ) (mode : ApMode)
    (selfFreqs selfPS argPS : List ℝ) : List ℝ :=
  [guessOrDefault g0 (argPS.getD 1 0)] ++
    (match mode with | .knee => [g1] | .fixed => []) ++
    [guessOrDefault g2 (apExpSlope selfFreqs selfPS)]

end

/-- Helper: the reset (all-NaN) results never count as a fitted model. -/
theorem hasModel_resetResults (mode : ApMode) : hasModel (resetResults mode) = false := by
  cases mode <;> rfl

/-- Helper: the configuration after `fit` is the configuration after the
prominence overwrite of line 566, in every branch of the exception flow. -/
theorem fitStep_config_eq (s : PSState) (promArg : ℚ) (debug : Bool)
    (o : FitOracle) :
    (fitStep s promArg debug o).1.config = (setProminence s promArg).config := by
  unfold fitStep
  rcases h : fitBodySt (setProminence s promArg).results o with ⟨r, e⟩
  cases e with
  | none => rfl
  | some exc => cases exc <;> cases debug <;> rfl

/-- C8: the constructor's retained band set excludes exactly the bands that
lie fully outside the cutoff window: a band is retained iff it belongs to
the resolved scheme, its upper bound exceeds `l_freq`, and its lower bound
is below `h_freq`. -/
theorem c8_retained_bands (rawBands : List (ℚ × ℚ)) (l_freq h_freq : ℚ)
    (mode : ApMode) (linenoise : Option ℚ) (prominence : ℚ) (log_freqs : Bool)
    (max_n_peaks : ℕ) (band : ℚ × ℚ) :
    band ∈ (mkConfig rawBands l_freq h_freq mode linenoise prominence log_freqs
        max_n_peaks).bands ↔
      band ∈ rawBands ∧ l_freq < band.2 ∧ band.1 < h_freq := by
  simp only [mkConfig, retainedBands, List.mem_filter, Bool.and_eq_true,
    decide_eq_true_eq]
  tauto

/-- C2 (code bug): with base line-noise frequency 50 and maximum data
frequency 100, `_prepare_data` enumerates the candidate harmonics as
`[60, 120]` — hardcoded multiples of 60, with only the count `⌊100/50⌋`
derived from the configured base — whereas the claimed enumeration is the
multiples of the base itself, `[50, 100]`. -/
theorem c2_harmonics_hardcoded_60 :
    prepareHarmonics (some 50) 100 = [60, 120] ∧
      specHarmonics 50 100 = [50, 100] ∧
      prepareHarmonics (some 50) 100 ≠ specHarmonics 50 100 := by
  have hmax : maxHarmonic (some 50) 100 = 2 := by
    show (⌊(100 : ℚ) / 50⌋ : ℤ) = 2
    norm_num
  have hrange : List.range (2 : ℤ).toNat = [0, 1] := rfl
  have h1 : prepareHarmonics (some 50) 100 = [60, 120] := by
    unfold prepareHarmonics
    rw [hmax, if_pos (by norm_num : (0 : ℤ) < 2), hrange]
    norm_num
  have h2 : specHarmonics 50 100 = [50, 100] := by
    unfold specHarmonics
    have hfloor : (⌊(100 : ℚ) / 50⌋ : ℤ) = 2 := by norm_num
    rw [hfloor, hrange]
    norm_num
  refine ⟨h1, h2, ?_⟩
  rw [h1, h2]
  norm_num

/-- C1 (code bug): in non-debug mode, a `RuntimeError` raised by
`curve_fit` inside the final `_simple_ap_fit` (fit step f) is caught
neither by `_simple_ap_fit`'s own handler (which only catches `FitError`)
nor by the `except FitError` of `ParamSpectra.fit`, so `fit` raises instead
of containing the failure, and the partial model results remain attached
(`has_model` stays true) instead of being reset to the all-NaN failed
state. -/
theorem c1_runtimeError_escapes_fit :
    (fitStep (initPS (mkConfig [(4, 8)] (3/10) 250 .knee (some 60) (1/2) true 6))
        (1/2) false oracleFinalRuntimeError).2 = some Exc.runtimeError ∧
      hasModel (fitStep (initPS (mkConfig [(4, 8)] (3/10) 250 .knee (some 60)
          (1/2) true 6)) (1/2) false oracleFinalRuntimeError).1.results = true := by
  exact ⟨rfl, rfl⟩

/-- C5 (counterexample): an instance constructed with prominence 7/10, after
a `fit` call that uses the Python-default prominence argument 1/2, holds
prominence 1/2 — the constructor-supplied configuration value does not
survive the call. -/
theorem c5_prominence_counterexample :
    ((fitStep (initPS (mkConfig [(4, 8)] (3/10) 250 .knee (some 60) (7/10) true 6))
        (1/2) false oracleAllOk).1).config.prominence ≠ (7/10 : ℚ) := by
  show (1/2 : ℚ) ≠ 7/10
  norm_num

/-- C5 (amended): `ParamSpectra.fit` overwrites the stored prominence with
its own `prominence` argument (line 566) before the spectrum is conditioned,
so harmonic detection uses the fit-call value rather than the constructor
value; every other constructor-supplied configuration field (band set,
cutoffs, aperiodic mode, line-noise base, frequency-domain flag, peak count)
is unchanged by `fit` in every branch of the exception flow. -/
theorem c5_fit_config_frame (s : PSState) (promArg : ℚ) (debug : Bool)
    (o : FitOracle) :
    (fitStep s promArg debug o).1.config.prominence = promArg ∧
      (fitStep s promArg debug o).1.config.bands = s.config.bands ∧
      (fitStep s promArg debug o).1.config.l_freq = s.config.l_freq ∧
      (fitStep s promArg debug o).1.config.h_freq = s.config.h_freq ∧
      (fitStep s promArg debug o).1.config.aperiodic_mode = s.config.aperiodic_mode ∧
      (fitStep s promArg debug o).1.config.linenoise = s.config.linenoise ∧
      (fitStep s promArg debug o).1.config.log_freqs = s.config.log_freqs ∧
      (fitStep s promArg debug o).1.config.max_n_peaks = s.config.max_n_peaks := by
  rw [fitStep_config_eq s promArg debug o]
  exact ⟨rfl, rfl, rfl, rfl, rfl, rfl, rfl, rfl⟩

/-- C7: requesting the model fit record on a freshly constructed instance
raises `NoModelError`, and requesting it after a contained fit failure (the
`except FitError` branch in non-debug mode, which resets the aperiodic
parameters to all-NaN) also raises `NoModelError` rather than returning
stale results. -/
theorem c7_get_params_no_model (cfg : Config) (s : PSState) (promArg : ℚ)
    (o : FitOracle)
    (hfail : (fitBodySt (setProminence s promArg).results o).2 = some Exc.fitError) :
    getParamsOut (initPS cfg) = .error Exc.noModelError ∧
      getParamsOut (fitStep s promArg false o).1 = .error Exc.noModelError := by
  constructor
  · simp [getParamsOut, initPS, hasModel_resetResults]
  · unfold fitStep
    rcases h : fitBodySt (setProminence s promArg).results o with ⟨r, e⟩
    have he : e = some Exc.fitError := by rw [h] at hfail; exact hfail
    subst he
    simp [getParamsOut, hasModel_resetResults]

/-- Witness for C7: a concrete fresh instance, and a concrete fit whose
robust re-solve fails with `RuntimeError` (wrapped as `FitError` and
contained); both requests raise `NoModelError`. -/
theorem c7_get_params_no_model_witness :
    getParamsOut (initPS (mkConfig [(4, 8)] (3/10) 250 .knee (some 60) (1/2)
        true 6)) = .error Exc.noModelError ∧
      getParamsOut (fitStep (initPS (mkConfig [(4, 8)] (3/10) 250 .knee (some 60)
          (1/2) true 6)) (1/2) false oracleRefitRuntimeError).1
        = .error Exc.noModelError :=
  c7_get_params_no_model _ _ _ _ rfl

/-- Helper: selecting through an empty mask yields nothing. -/
theorem maskSelect_nil (a : List ℚ) : maskSelect a [] = [] := by
  cases a <;> rfl

/-- Helper: boolean-mask selection steps through one element at a time. -/
theorem maskSelect_cons (x : ℚ) (xs : List ℚ) (b : Bool) (t : List Bool) :
    maskSelect (x :: xs) (b :: t) =
      if b then x :: maskSelect xs t else maskSelect xs t := by
  cases b <;>
    simp only [maskSelect, List.zip_cons_cons, List.filter_cons,
      List.map_cons, if_true, if_false, Bool.false_eq_true,
      ite_true, ite_false]

/-- Helper: selecting two equal-length lists through one shared mask keeps
exactly the pairs at mask-true positions. -/
theorem maskSelect_zip_eq (m : List Bool) :
    ∀ a c : List ℚ, a.length = m.length → c.length = m.length →
      (maskSelect a m).zip (maskSelect c m) =
        (((a.zip c).zip m).filter (fun p => p.2)).map (fun p => p.1) := by
  induction m with
  | nil =>
    intro a c ha hc
    rw [List.length_eq_zero.mp ha, List.length_eq_zero.mp hc]
    rfl
  | cons b t ih =>
    intro a c ha hc
    cases a with
    | nil => simp at ha
    | cons x xs =>
      cases c with
      | nil => simp at hc
      | cons y ys =>
        have ha' : xs.length = t.length := by simpa using ha
        have hc' : ys.length = t.length := by simpa using hc
        cases b with
        | true =>
          rw [maskSelect_cons, maskSelect_cons, if_pos rfl, if_pos rfl]
          simp only [List.zip_cons_cons, List.filter_cons, List.map_cons]
          rw [ih xs ys ha' hc']
          rfl
        | false =>
          rw [maskSelect_cons, maskSelect_cons, if_neg (by simp), if_neg (by simp)]
          simp only [List.zip_cons_cons, List.filter_cons]
          rw [ih xs ys ha' hc']
          rfl

/-- Helper: masking through a pointwise predicate on a value list is the
same as filtering on the predicate applied to the zipped values. -/
theorem zip_map_mask_filter {α : Type} (pred : ℚ → Bool) :
    ∀ (l : List α) (w : List ℚ),
      ((l.zip (w.map pred)).filter (fun p => p.2)).map (fun p => p.1) =
        ((l.zip w).filter (fun p => pred p.2)).map (fun p => p.1) := by
  intro l
  induction l with
  | nil => intro w; rfl
  | cons x xs ih =>
    intro w
    cases w with
    | nil => rfl
    | cons v vs =>
      simp only [List.map_cons, List.zip_cons_cons, List.filter_cons]
      cases h : pred v <;> simp [h, ih vs]

/-- Helper: the clipped residual list is as long as the shorter input. -/
theorem clippedResiduals_length (ps fit : List ℚ) :
    (clippedResiduals ps fit).length = min ps.length fit.length := by
  simp [clippedResiduals]

/-- Helper: pointwise description of the clipped residual spectrum of
`_robust_ap_fit`: each entry is the raw residual with negatives clipped. -/
theorem clippedResiduals_getD (ps : List ℚ) :
    ∀ (fit : List ℚ), ps.length = fit.length →
      ∀ i, (clippedResiduals ps fit).getD i 0 =
        max 0 (ps.getD i 0 - fit.getD i 0) := by
  induction ps with
  | nil =>
    intro fit h i
    cases fit with
    | nil => simp [clippedResiduals]
    | cons f ft => simp at h
  | cons p pt ih =>
    intro fit h i
    cases fit with
    | nil => simp at h
    | cons f ft =>
      cases i with
      | zero => simp [clippedResiduals]
      | succ n => simpa [clippedResiduals] using ih ft (by simpa using h) n

/-- C4 (counterexample): on a 41-sample spectrum with clipped residuals
0, 1, ..., 40, the code keeps only the points at or below the 0.025th
percentile (threshold 1/100, a single point) while the claimed 2.5th
percentile rule would keep two points — the selections differ. -/
theorem c4_percentile_counterexample :
    robustFreqsIgnore c4Freqs c4Power c4InitFit = [1] ∧
      specSelect2p5 c4Freqs c4Power c4InitFit = [1, 2] ∧
      robustFreqsIgnore c4Freqs c4Power c4InitFit ≠
        specSelect2p5 c4Freqs c4Power c4InitFit := by
  have h1 : robustFreqsIgnore c4Freqs c4Power c4InitFit = [1] := by
    norm_num [robustFreqsIgnore, maskSelect, robustMask, robustThreshold,
      clippedResiduals, npPercentile, sortQ, insortQ, c4Freqs, c4Power,
      c4InitFit, List.filter]
  have h2 : specSelect2p5 c4Freqs c4Power c4InitFit = [1, 2] := by
    norm_num [specSelect2p5, maskSelect, robustMask, robustThreshold,
      clippedResiduals, npPercentile, sortQ, insortQ, c4Freqs, c4Power,
      c4InitFit, List.filter]
  refine ⟨h1, h2, ?_⟩
  rw [h1, h2]
  simp

/-- C4 (amended): in `_robust_ap_fit`, after subtracting the initial simple
fit the residual spectrum has its negative values clipped to zero, and the
re-fit is restricted to exactly those points whose clipped residual is at or
below the 0.025th percentile of the clipped residuals — the stored threshold
0.025 is passed to `np.percentile` on its 0-100 scale, so the cut is at
0.025%, not 2.5% — and the re-fit uses the first fit's parameters as its
initial guess. -/
theorem c4_robust_selection (freqs ps fit : List ℚ)
    (hf : freqs.length = ps.length) (hp : ps.length = fit.length) :
    ((robustFreqsIgnore freqs ps fit).zip (robustSpectrumIgnore ps fit) =
      (((freqs.zip ps).zip (clippedResiduals ps fit)).filter
        (fun x => decide (x.2 ≤ npPercentile (clippedResiduals ps fit) (1 / 40)))).map
          (fun x => x.1)) ∧
      (∀ i, (clippedResiduals ps fit).getD i 0 =
        max 0 (ps.getD i 0 - fit.getD i 0)) ∧
      (∀ (o : FitOracle) (popt res : List ℚ),
        simpleApFitExc o.simpleInitial = .ok popt →
        o.robustRefit popt = .ok res → robustApFit o = .ok res) := by
  have hlen : (clippedResiduals ps fit).length = ps.length := by
    rw [clippedResiduals_length, hp, min_self]
  refine ⟨?_, ?_, ?_⟩
  · have hm : (robustMask ps fit).length = ps.length := by
      simp [robustMask, hlen]
    have h1 := maskSelect_zip_eq (robustMask ps fit) freqs ps
      (by rw [hm, hf]) (by rw [hm])
    rw [robustFreqsIgnore, robustSpectrumIgnore, h1, robustMask, robustThreshold]
    exact zip_map_mask_filter _ (freqs.zip ps) (clippedResiduals ps fit)
  · exact clippedResiduals_getD ps fit hp
  · intro o popt res h1 h2
    simp [robustApFit, h1, h2]

/-- Witness for C4 on a concrete two-point spectrum: the clipped residuals
are [1, 0], the 0.025th-percentile threshold is 1/4000, and only the second
point survives; the clip identity and the guess propagation hold on the
same data. -/
theorem c4_robust_selection_witness :
    ([1, 2] : List ℚ).length = ([5, 3] : List ℚ).length ∧
      ([5, 3] : List ℚ).length = ([4, 4] : List ℚ).length ∧
      (robustFreqsIgnore [1, 2] [5, 3] [4, 4]).zip
        (robustSpectrumIgnore [5, 3] [4, 4]) = [((2 : ℚ), (3 : ℚ))] ∧
      (clippedResiduals [5, 3] [4, 4]).getD 0 0 = max 0 ((5 : ℚ) - 4) ∧
      robustApFit oracleAllOk = .ok [0, 1, 2] := by
  have h := c4_robust_selection [1, 2] [5, 3] [4, 4] rfl rfl
  refine ⟨rfl, rfl, ?_, h.2.1 0, h.2.2 oracleAllOk [0, 1, 2] [0, 1, 2] rfl rfl⟩
  rw [h.1]
  norm_num [clippedResiduals, npPercentile, sortQ, insortQ, List.filter]

/-- Helper: for a positive width, `compute_gauss_std` is positive and
strictly below the width itself (its denominator `2*sqrt(2*ln 2)` exceeds 1,
indeed exceeds 2). -/
theorem compute_gauss_std_pos_lt (w : ℝ) (hw : 0 < w) :
    0 < compute_gauss_std w ∧ compute_gauss_std w < w := by
  have hlog : (0.6931471803 : ℝ) < Real.log 2 := Real.log_two_gt_d9
  have h2 : (1 : ℝ) < 2 * Real.log 2 := by nlinarith
  have hs0 : 0 ≤ Real.sqrt (2 * Real.log 2) := Real.sqrt_nonneg _
  have hs2 : Real.sqrt (2 * Real.log 2) ^ 2 = 2 * Real.log 2 :=
    Real.sq_sqrt (by nlinarith)
  have hs1 : 1 < Real.sqrt (2 * Real.log 2) := by
    nlinarith [hs0, hs2, h2, sq_nonneg (Real.sqrt (2 * Real.log 2) - 1)]
  have hden : 0 < 2 * Real.sqrt (2 * Real.log 2) := by nlinarith
  constructor
  · exact div_pos hw hden
  · rw [compute_gauss_std, div_lt_iff₀ hden]
    nlinarith

/-- Helper: unfolding of the per-band bound pairs of
`constrained_gaussian_fit` one band at a time. -/
theorem gaussFitBoundPairs_cons (b : ℝ × ℝ) (bs : List (ℝ × ℝ)) :
    gaussFitBoundPairs (b :: bs) =
      ((⊥ : EReal), (⊤ : EReal)) ::
        ((b.1 : EReal), (b.2 : EReal)) ::
        (((0 : ℝ) : EReal), ((compute_gauss_std (b.2 - b.1) : ℝ) : EReal)) ::
        gaussFitBoundPairs bs := by
  simp [gaussFitBoundPairs]

/-- Helper: `getD` skips a three-element prefix. -/
theorem getD_cons3 {α : Type} (x y z : α) (l : List α) (k : ℕ) (d : α) :
    (x :: y :: z :: l).getD (k + 3) d = l.getD k d := by
  rw [show k + 3 = (k + 2) + 1 from rfl, List.getD_cons_succ,
    show k + 2 = (k + 1) + 1 from rfl, List.getD_cons_succ, List.getD_cons_succ]

/-- C3 (counterexample): for the band `(0, 4)` the upper bound of the
standard-deviation parameter passed to `curve_fit` is
`compute_gauss_std 4 = 4 / (2*sqrt(2*ln 2)) ≈ 1.7`, not the band width 4. -/
theorem c3_std_bound_counterexample :
    ((gaussFitBoundPairs [((0 : ℝ), 4)]).getD 2 (⊥, ⊥)).2 ≠ ((4 : ℝ) : EReal) := by
  have hval : ((gaussFitBoundPairs [((0 : ℝ), 4)]).getD 2 (⊥, ⊥)).2 =
      ((compute_gauss_std 4 : ℝ) : EReal) := by
    rw [gaussFitBoundPairs_cons]
    norm_num
  rw [hval, ne_eq, EReal.coe_eq_coe_iff]
  have h := compute_gauss_std_pos_lt 4 (by norm_num)
  intro hcontra
  rw [hcontra] at h
  exact absurd h.2 (lt_irrefl 4)

/-- C3 (amended): for band `i` with bounds `(low, high)` the joint
constrained Gaussian fit passes, in order, the parameter bounds
amplitude `(-inf, inf)` (unbounded), mean `(low, high)`, and standard
deviation `(0, compute_gauss_std (high - low))` — the std upper bound is the
std implied by treating the band width as a full-width-half-max, which is
strictly positive and strictly smaller than the band width. -/
theorem c3_gauss_bounds (bands : List (ℝ × ℝ)) (i : ℕ) (hi : i < bands.length) :
    (gaussFitBoundPairs bands).getD (3 * i) (⊥, ⊥) = ((⊥ : EReal), (⊤ : EReal)) ∧
      (gaussFitBoundPairs bands).getD (3 * i + 1) (⊥, ⊥) =
        (((bands.getD i (0, 0)).1 : EReal), ((bands.getD i (0, 0)).2 : EReal)) ∧
      (gaussFitBoundPairs bands).getD (3 * i + 2) (⊥, ⊥) =
        (((0 : ℝ) : EReal),
          ((compute_gauss_std ((bands.getD i (0, 0)).2 - (bands.getD i (0, 0)).1) : ℝ) :
            EReal)) ∧
      ((bands.getD i (0, 0)).1 < (bands.getD i (0, 0)).2 →
        0 < compute_gauss_std ((bands.getD i (0, 0)).2 - (bands.getD i (0, 0)).1) ∧
          compute_gauss_std ((bands.getD i (0, 0)).2 - (bands.getD i (0, 0)).1) <
            (bands.getD i (0, 0)).2 - (bands.getD i (0, 0)).1) := by
  induction bands generalizing i with
  | nil => simp at hi
  | cons b bs ih =>
    cases i with
    | zero =>
      rw [gaussFitBoundPairs_cons]
      exact ⟨rfl, rfl, rfl, fun h =>
        compute_gauss_std_pos_lt _ (sub_pos.mpr h)⟩
    | succ n =>
      have hi' : n < bs.length := by simpa using hi
      have e0 : 3 * (n + 1) = 3 * n + 3 := by ring
      have e1 : 3 * (n + 1) + 1 = (3 * n + 1) + 3 := by ring
      have e2 : 3 * (n + 1) + 2 = (3 * n + 2) + 3 := by ring
      rw [gaussFitBoundPairs_cons, e1, e2, e0, getD_cons3, getD_cons3, getD_cons3]
      simp only [List.getD_cons_succ]
      exact ih n hi'

/-- Witness for C3 at the single band `(1, 3)`: the three bound pairs as
produced by the code, and the std upper bound strictly between 0 and the
band width 2. -/
theorem c3_gauss_bounds_witness :
    (0 : ℕ) < ([((1 : ℝ), 3)] : List (ℝ × ℝ)).length ∧
      (gaussFitBoundPairs [((1 : ℝ), 3)]).getD 0 (⊥, ⊥) =
        ((⊥ : EReal), (⊤ : EReal)) ∧
      (gaussFitBoundPairs [((1 : ℝ), 3)]).getD 1 (⊥, ⊥) =
        (((1 : ℝ) : EReal), ((3 : ℝ) : EReal)) ∧
      (gaussFitBoundPairs [((1 : ℝ), 3)]).getD 2 (⊥, ⊥) =
        (((0 : ℝ) : EReal), ((compute_gauss_std ((3 : ℝ) - 1) : ℝ) : EReal)) ∧
      (0 < compute_gauss_std ((3 : ℝ) - 1) ∧
        compute_gauss_std ((3 : ℝ) - 1) < (3 : ℝ) - 1) := by
  have h := c3_gauss_bounds [((1 : ℝ), 3)] 0 (by norm_num)
  exact ⟨by norm_num, h.1, h.2.1, h.2.2.1,
    h.2.2.2 (show (1 : ℝ) < 3 by norm_num)⟩

/-- Helper: `getD` on a mapped index range evaluates the function. -/
theorem rangeMapGetD {α : Type} (f : ℕ → α) (c i : ℕ) (d : α) (h : i < c) :
    ((List.range c).map f).getD i d = f i := by
  rw [List.getD_eq_getElem?_getD, List.getElem?_map, List.getElem?_range h]
  rfl

/-- Helper: the first point of a linspace grid is its left endpoint. -/
theorem linVal_zero (a b : ℝ) (den : ℕ) : linVal a b den 0 = a := by
  simp [linVal]

/-- Helper: the last point of a linspace grid is its right endpoint. -/
theorem linVal_last (a b : ℝ) (den : ℕ) (hden : den ≠ 0) :
    linVal a b den den = b := by
  have hd : (den : ℝ) ≠ 0 := Nat.cast_ne_zero.mpr hden
  field_simp [linVal]

/-- Helper: a linspace grid is strictly increasing when its endpoints are
ordered. -/
theorem linVal_lt_succ (a b : ℝ) (den : ℕ) (hab : a < b) (i : ℕ)
    (hden : 0 < den) : linVal a b den i < linVal a b den (i + 1) := by
  have hd : (0 : ℝ) < den := by exact_mod_cast hden
  have hba : (0 : ℝ) < b - a := sub_pos.mpr hab
  have hkey : (b - a) * (i : ℕ) / den < (b - a) * ((i : ℕ) + 1 : ℕ) / den := by
    apply div_lt_div_of_pos_right ?_ hd
    have hi : ((i : ℕ) : ℝ) < (((i : ℕ) + 1 : ℕ) : ℝ) := by push_cast; linarith
    exact mul_lt_mul_of_pos_left hi hba
  unfold linVal
  linarith [hkey]

/-- Helper: the `linear` scheme band at index `i`. -/
theorem str2bandLinear_getD (n : ℕ) (l h : ℝ) (i : ℕ) (hi : i < n) :
    (str2bandLinear n l h).getD i (0, 0) =
      (linVal l h n i, linVal l h n (i + 1)) :=
  rangeMapGetD _ n i _ hi

/-- Helper: the `log` scheme band at index `i`. -/
theorem str2bandLog_getD (n : ℕ) (l h : ℝ) (i : ℕ) (hi : i < min n 62) :
    (str2bandLog n l h).getD i (0, 0) =
      (logGridPt l h (min n 62) i, logGridPt l h (min n 62) (i + 1)) :=
  rangeMapGetD _ (min n 62) i _ hi

/-- Helper: the `log10` scheme band at index `i`. -/
theorem str2bandLog10_getD (n : ℕ) (l h : ℝ) (i : ℕ) (hi : i < n) :
    (str2bandLog10 n l h).getD i (0, 0) =
      (log10GridPt l h n i, log10GridPt l h n (i + 1)) :=
  rangeMapGetD _ n i _ hi

/-- C6 (counterexample): with a requested peak count of 100 the `linear`
and `log10` schemes produce 100 intervals — the 62 cap applies only to the
`log` scheme — so the claimed count `min(n, 62)` fails for them. -/
theorem c6_cap_counterexample :
    (str2bandLinear 100 (3 / 10 : ℝ) 250).length = 100 ∧
      (str2bandLog10 100 (3 / 10 : ℝ) 250).length = 100 ∧
      (str2bandLog 100 (3 / 10 : ℝ) 250).length = 62 ∧
      (100 : ℕ) ≠ min 100 62 := by
  refine ⟨?_, ?_, ?_, by omega⟩ <;>
    simp [str2bandLinear, str2bandLog10, str2bandLog]

/-- C6 (amended): for `0 < l < h`, the generated schemes produce
`min n 62` (`log`) respectively `n` (`linear`, `log10`) intervals; in each
scheme consecutive intervals share an endpoint (contiguity), every interval
has a strictly smaller low than high bound (so the contiguous intervals are
non-overlapping), and for `n > 0` the first low bound is `l` and the last
high bound is `h` (the intervals span `[l, h]`). -/
theorem c6_generated_schemes (n : ℕ) (l h : ℝ) (hl : 0 < l) (hlh : l < h) :
    ((str2bandLog n l h).length = min n 62 ∧
      (str2bandLinear n l h).length = n ∧
      (str2bandLog10 n l h).length = n) ∧
    (∀ i, i + 1 < min n 62 →
      ((str2bandLog n l h).getD (i + 1) (0, 0)).1 =
        ((str2bandLog n l h).getD i (0, 0)).2) ∧
    (∀ i, i + 1 < n →
      ((str2bandLinear n l h).getD (i + 1) (0, 0)).1 =
        ((str2bandLinear n l h).getD i (0, 0)).2) ∧
    (∀ i, i + 1 < n →
      ((str2bandLog10 n l h).getD (i + 1) (0, 0)).1 =
        ((str2bandLog10 n l h).getD i (0, 0)).2) ∧
    (∀ i, i < min n 62 →
      ((str2bandLog n l h).getD i (0, 0)).1 <
        ((str2bandLog n l h).getD i (0, 0)).2) ∧
    (∀ i, i < n →
      ((str2bandLinear n l h).getD i (0, 0)).1 <
        ((str2bandLinear n l h).getD i (0, 0)).2) ∧
    (∀ i, i < n →
      ((str2bandLog10 n l h).getD i (0, 0)).1 <
        ((str2bandLog10 n l h).getD i (0, 0)).2) ∧
    (0 < n →
      ((str2bandLog n l h).getD 0 (0, 0)).1 = l ∧
      ((str2bandLog n l h).getD (min n 62 - 1) (0, 0)).2 = h ∧
      ((str2bandLinear n l h).getD 0 (0, 0)).1 = l ∧
      ((str2bandLinear n l h).getD (n - 1) (0, 0)).2 = h ∧
      ((str2bandLog10 n l h).getD 0 (0, 0)).1 = l ∧
      ((str2bandLog10 n l h).getD (n - 1) (0, 0)).2 = h) := by
  have hh : (0 : ℝ) < h := lt_trans hl hlh
  have hlog : Real.log l < Real.log h := Real.log_lt_log hl hlh
  have hlogb : Real.logb 10 l < Real.logb 10 h :=
    Real.logb_lt_logb (by norm_num) hl hlh
  refine ⟨⟨?_, ?_, ?_⟩, ?_, ?_, ?_, ?_, ?_, ?_, ?_⟩
  · simp [str2bandLog]
  · simp [str2bandLinear]
  · simp [str2bandLog10]
  · intro i hi
    rw [str2bandLog_getD n l h (i + 1) hi, str2bandLog_getD n l h i (by omega)]
  · intro i hi
    rw [str2bandLinear_getD n l h (i + 1) hi,
      str2bandLinear_getD n l h i (by omega)]
  · intro i hi
    rw [str2bandLog10_getD n l h (i + 1) hi,
      str2bandLog10_getD n l h i (by omega)]
  · intro i hi
    rw [str2bandLog_getD n l h i hi]
    exact Real.exp_lt_exp.mpr
      (linVal_lt_succ _ _ (min n 62) hlog i (by omega))
  · intro i hi
    rw [str2bandLinear_getD n l h i hi]
    exact linVal_lt_succ _ _ n hlh i (by omega)
  · intro i hi
    rw [str2bandLog10_getD n l h i hi]
    exact (Real.rpow_lt_rpow_left_iff (by norm_num : (1 : ℝ) < 10)).mpr
      (linVal_lt_succ _ _ n hlogb i (by omega))
  · intro hn
    have hm : 0 < min n 62 := by omega
    have hm1 : min n 62 - 1 < min n 62 := by omega
    have hm1' : min n 62 - 1 + 1 = min n 62 := by omega
    have hn1 : n - 1 < n := by omega
    have hn1' : n - 1 + 1 = n := by omega
    refine ⟨?_, ?_, ?_, ?_, ?_, ?_⟩
    · rw [str2bandLog_getD n l h 0 hm]
      show logGridPt l h (min n 62) 0 = l
      rw [logGridPt, linVal_zero, Real.exp_log hl]
    · rw [str2bandLog_getD n l h (min n 62 - 1) hm1]
      show logGridPt l h (min n 62) (min n 62 - 1 + 1) = h
      rw [hm1', logGridPt, linVal_last _ _ _ (by omega), Real.exp_log hh]
    · rw [str2bandLinear_getD n l h 0 (by omega)]
      exact linVal_zero l h n
    · rw [str2bandLinear_getD n l h (n - 1) hn1]
      show linVal l h n (n - 1 + 1) = h
      rw [hn1']
      exact linVal_last l h n (by omega)
    · rw [str2bandLog10_getD n l h 0 (by omega)]
      show log10GridPt l h n 0 = l
      rw [log10GridPt, linVal_zero, Real.rpow_logb (by norm_num) (by norm_num) hl]
    · rw [str2bandLog10_getD n l h (n - 1) hn1]
      show log10GridPt l h n (n - 1 + 1) = h
      rw [hn1', log10GridPt, linVal_last _ _ _ (by omega),
        Real.rpow_logb (by norm_num) (by norm_num) hh]

/-- Witness for C6 at `n = 2`, `l = 1`, `h = 2`: the three schemes each
yield two contiguous intervals with increasing bounds, starting at 1 and
ending at 2. -/
theorem c6_generated_schemes_witness :
    (0 : ℝ) < 1 ∧ (1 : ℝ) < 2 ∧
      (str2bandLog 2 1 2).length = min 2 62 ∧
      (str2bandLinear 2 1 2).length = 2 ∧
      (str2bandLog10 2 1 2).length = 2 ∧
      ((str2bandLog 2 1 2).getD 1 (0, 0)).1 = ((str2bandLog 2 1 2).getD 0 (0, 0)).2 ∧
      ((str2bandLinear 2 1 2).getD 1 (0, 0)).1 =
        ((str2bandLinear 2 1 2).getD 0 (0, 0)).2 ∧
      ((str2bandLog10 2 1 2).getD 1 (0, 0)).1 =
        ((str2bandLog10 2 1 2).getD 0 (0, 0)).2 ∧
      ((str2bandLog 2 1 2).getD 0 (0, 0)).1 < ((str2bandLog 2 1 2).getD 0 (0, 0)).2 ∧
      ((str2bandLinear 2 1 2).getD 0 (0, 0)).1 <
        ((str2bandLinear 2 1 2).getD 0 (0, 0)).2 ∧
      ((str2bandLog10 2 1 2).getD 0 (0, 0)).1 <
        ((str2bandLog10 2 1 2).getD 0 (0, 0)).2 ∧
      ((str2bandLog 2 1 2).getD 0 (0, 0)).1 = 1 ∧
      ((str2bandLog 2 1 2).getD (min 2 62 - 1) (0, 0)).2 = 2 ∧
      ((str2bandLinear 2 1 2).getD 0 (0, 0)).1 = 1 ∧
      ((str2bandLinear 2 1 2).getD 1 (0, 0)).2 = 2 ∧
      ((str2bandLog10 2 1 2).getD 0 (0, 0)).1 = 1 ∧
      ((str2bandLog10 2 1 2).getD 1 (0, 0)).2 = 2 := by
  have h := c6_generated_schemes 2 1 2 (by norm_num) (by norm_num)
  obtain ⟨⟨hL1, hL2, hL3⟩, hc1, hc2, hc3, hm1, hm2, hm3, hspan⟩ := h
  obtain ⟨hs1, hs2, hs3, hs4, hs5, hs6⟩ := hspan (by norm_num)
  exact ⟨by norm_num, by norm_num, hL1, hL2, hL3,
    hc1 0 (by norm_num), hc2 0 (by norm_num), hc3 0 (by norm_num),
    hm1 0 (by norm_num), hm2 0 (by norm_num), hm3 0 (by norm_num),
    hs1, hs2, hs3, hs4, hs5, hs6⟩

/-- Helper: a left fold by `min` returns its seed or a list element. -/
theorem foldl_min_mem (t : List ℝ) : ∀ m : ℝ, t.foldl min m = m ∨ t.foldl min m ∈ t := by
  induction t with
  | nil => intro m; left; rfl
  | cons x xs ih =>
    intro m
    rcases ih (min m x) with hc | hc
    · rcases min_choice m x with hmx | hmx
      · left; rw [List.foldl_cons, hc, hmx]
      · right; rw [List.foldl_cons, hc, hmx]; exact List.mem_cons_self x xs
    · right; exact List.mem_cons_of_mem x hc

/-- Helper: a left fold by `min` is a lower bound of its seed and of every
list element. -/
theorem foldl_min_le (t : List ℝ) :
    ∀ m : ℝ, t.foldl min m ≤ m ∧ ∀ x ∈ t, t.foldl min m ≤ x := by
  induction t with
  | nil => intro m; exact ⟨le_refl m, by simp⟩
  | cons x xs ih =>
    intro m
    obtain ⟨h1, h2⟩ := ih (min m x)
    refine ⟨le_trans h1 (min_le_left m x), ?_⟩
    intro y hy
    rcases List.mem_cons.mp hy with rfl | hy'
    · exact le_trans h1 (min_le_right m y)
    · exact h2 y hy'

/-- C9 (counterexample): on the frequency array `[1]` with parameters
`offset = 0, knee = -10, exponent = 0`, every entry of
`knee + frequency^exponent` is non-positive, so the replacement minimum is
taken over an empty array and `expo_function` fails (numpy `ValueError`)
instead of producing finite output at every grid point. -/
theorem c9_all_nonpositive_counterexample :
    expoFunction [1] 0 (-10) 0 = none := by
  have hinner : innerArgs [1] (-10) 0 = [-9] := by
    simp only [innerArgs, List.map_cons, List.map_nil, Real.rpow_zero]
    norm_num
  have hfilter : ([(-9 : ℝ)].filter (fun v => decide (0 < v))) = [] := by
    have hneg : ¬ (0 < (-9 : ℝ)) := by norm_num
    simp [List.filter_cons, hneg]
  simp only [expoFunction, hinner, hfilter, if_pos]

/-- C9 (amended): whenever at least one entry of `knee + frequency^exponent`
is positive, `expo_function` succeeds and applies `log10` to the array in
which every non-positive entry has been replaced by the smallest positive
value present in the array — that replacement value is positive, occurs in
the array, is a lower bound of all positive entries, and every logarithm
argument ends up positive (so the output is finite); when no entry is
positive the function fails instead (see the counterexample). -/
theorem c9_expo_guard (xs : List ℝ) (offset knee expn : ℝ)
    (hex : ∃ v ∈ innerArgs xs knee expn, 0 < v) :
    expoFunction xs offset knee expn =
        some ((innerArgs xs knee expn).map
          (fun v => offset - Real.logb 10
            (if v ≤ 0 then minPositiveEntry (innerArgs xs knee expn) else v))) ∧
      0 < minPositiveEntry (innerArgs xs knee expn) ∧
      minPositiveEntry (innerArgs xs knee expn) ∈ innerArgs xs knee expn ∧
      (∀ v ∈ innerArgs xs knee expn, 0 < v →
        minPositiveEntry (innerArgs xs knee expn) ≤ v) ∧
      (∀ v ∈ innerArgs xs knee expn,
        0 < (if v ≤ 0 then minPositiveEntry (innerArgs xs knee expn) else v)) := by
  obtain ⟨v0, hv0, hv0pos⟩ := hex
  have hv0f : v0 ∈ (innerArgs xs knee expn).filter (fun v => decide (0 < v)) :=
    List.mem_filter.mpr ⟨hv0, by simpa⟩
  cases hf : (innerArgs xs knee expn).filter (fun v => decide (0 < v)) with
  | nil => rw [hf] at hv0f; exact absurd hv0f (List.not_mem_nil v0)
  | cons p rest =>
    have hmval : minPositiveEntry (innerArgs xs knee expn) = rest.foldl min p := by
      rw [minPositiveEntry, hf]
    have hmemf : rest.foldl min p ∈
        (innerArgs xs knee expn).filter (fun v => decide (0 < v)) := by
      rw [hf]
      rcases foldl_min_mem rest p with hc | hc
      · rw [hc]; exact List.mem_cons_self p rest
      · exact List.mem_cons_of_mem p hc
    have hm_pos : 0 < rest.foldl min p := by
      have := (List.mem_filter.mp hmemf).2
      simpa using this
    have hm_mem : rest.foldl min p ∈ innerArgs xs knee expn :=
      (List.mem_filter.mp hmemf).1
    have hm_le : ∀ v ∈ innerArgs xs knee expn, 0 < v → rest.foldl min p ≤ v := by
      intro v hv hvpos
      have hvf : v ∈ (innerArgs xs knee expn).filter (fun v => decide (0 < v)) :=
        List.mem_filter.mpr ⟨hv, by simpa⟩
      rw [hf] at hvf
      rcases List.mem_cons.mp hvf with rfl | hvr
      · exact (foldl_min_le rest v).1
      · exact (foldl_min_le rest p).2 v hvr
    refine ⟨?_, hmval ▸ hm_pos, hmval ▸ hm_mem, ?_, ?_⟩
    · simp only [expoFunction, hf]
      simp
    · intro v hv hvpos
      rw [hmval]
      exact hm_le v hv hvpos
    · intro v hv
      by_cases hvle : v ≤ 0
      · rw [if_pos hvle, hmval]; exact hm_pos
      · rw [if_neg hvle]; exact not_le.mp hvle

/-- Witness for C9 on the frequency array `[1, 3]` with
`knee = -2, exponent = 1`: the inner array `[-1, 1]` has a positive entry,
so the function succeeds, its replacement value is positive, occurs in the
inner array, and bounds the positive entry `-2 + 3^1 = 1` from below. -/
theorem c9_expo_guard_witness :
    0 < minPositiveEntry (innerArgs [1, 3] (-2) 1) ∧
      minPositiveEntry (innerArgs [1, 3] (-2) 1) ∈ innerArgs [1, 3] (-2) 1 ∧
      minPositiveEntry (innerArgs [1, 3] (-2) 1) ≤ (-2) + (3 : ℝ) ^ (1 : ℝ) ∧
      (expoFunction [1, 3] 0 (-2) 1).isSome = true := by
  have hmem : ((-2) + (3 : ℝ) ^ (1 : ℝ)) ∈ innerArgs [1, 3] (-2) 1 := by
    simp [innerArgs]
  have hpos : (0 : ℝ) < (-2) + (3 : ℝ) ^ (1 : ℝ) := by
    rw [Real.rpow_one]; norm_num
  have h := c9_expo_guard [1, 3] 0 (-2) 1 ⟨(-2) + (3 : ℝ) ^ (1 : ℝ), hmem, hpos⟩
  refine ⟨h.2.1, h.2.2.1, h.2.2.2.1 _ hmem hpos, ?_⟩
  rw [h.1]
  rfl

/-- C10: with the default stored guesses `_ap_guess = (None, kneeGuess,
None)`, the `_simple_ap_fit` guess vector takes its offset from index 1 of
the `power_spectrum` argument of the call, while its exponent guess is the
absolute log-log slope computed from the stored instance attributes
`self.power_spectrum` and `self.freqs` and is unchanged when the call
argument changes; consequently at fit step f
(`_simple_ap_fit(self.freqs, self._spectrum_peak_rm)`) the offset guess
comes from the peak-removed spectrum and the exponent guess from the
original conditioned spectrum. -/
theorem c10_simple_ap_fit_guess (kneeGuess : ℝ)
    (selfFreqs selfPS argPS argPS' : List ℝ) :
    (simpleApFitGuess none kneeGuess none .knee selfFreqs selfPS argPS).getD 0 0 =
        argPS.getD 1 0 ∧
      (simpleApFitGuess none kneeGuess none .knee selfFreqs selfPS argPS).getD 2 0 =
        apExpSlope selfFreqs selfPS ∧
      (simpleApFitGuess none kneeGuess none .fixed selfFreqs selfPS argPS).getD 1 0 =
        apExpSlope selfFreqs selfPS ∧
      (simpleApFitGuess none kneeGuess none .knee selfFreqs selfPS argPS).getD 2 0 =
        (simpleApFitGuess none kneeGuess none .knee selfFreqs selfPS argPS').getD 2 0 ∧
      simpleApFitGuess none kneeGuess none .knee selfFreqs selfPS argPS =
        [argPS.getD 1 0, kneeGuess, apExpSlope selfFreqs selfPS] :=
  ⟨rfl, rfl, rfl, rfl, rfl⟩

end SPBAND
